import Mathlib

/-!
Verification of the venue data-normalization-and-filter pipeline of the
Event-Planner application (src/app.py).

The embedding models CSV cells as lists of characters (`Str`).  The two
pipeline stages are translated from the source:

* `load_data` embeds `load_data` of app.py: per-row capacity parsing with
  `parse_capacity` (regex `^\d+(-\d+)?$` on ranges, else a direct integer
  parse), dropping rows whose capacity does not parse, then converting the
  Budget column (currency-symbol/comma stripping followed by integer
  conversion) where any conversion failure aborts the whole load.
* `filtered_venues` embeds the filtering block of app.py: a base filter
  (capacity, budget, case-insensitive event-type substring with missing
  values treated as non-matching), then conditional venue-type, location
  and amenity filters.
-/

namespace EventPlanner

/-- A raw text cell, as a list of characters. -/
abbrev Str := List Char

/-- Nonempty and all decimal digits (the `\d+` of the capacity regex). -/
def isDigits (s : Str) : Bool := !s.isEmpty && s.all (fun ch => ch.isDigit)

/-- Decimal value of a digit string (most significant digit first). -/
def digitsVal (s : Str) : Nat := s.foldl (fun acc ch => 10 * acc + (ch.toNat - 48)) 0

/-- Split a character list at every occurrence of `c`
(Python `str.split` semantics: `"a-b".split("-") == ["a", "b"]`). -/
def splitOnChar (c : Char) : Str → List Str
  | [] => [[]]
  | x :: xs =>
    if x = c then [] :: splitOnChar c xs
    else
      match splitOnChar c xs with
      | [] => [[x]]
      | s :: rest => (x :: s) :: rest

/-- Does the cell match the regex `^\d+(-\d+)?$` of app.py, i.e. one or two
nonempty digit groups separated by a single hyphen? -/
def capPattern (s : Str) : Bool :=
  match splitOnChar '-' s with
  | [a] => isDigits a
  | [a, b] => isDigits a && isDigits b
  | _ => false

/-- ASCII whitespace, as stripped by Python `int(...)` on strings. -/
def isSpaceCh (ch : Char) : Bool := ch = ' ' || ch = '\t' || ch = '\n' || ch = '\r'

/-- Strip leading and trailing whitespace. -/
def trimWs (s : Str) : Str := ((s.dropWhile isSpaceCh).reverse.dropWhile isSpaceCh).reverse

/-- Python `int(str)`: optional surrounding whitespace, optional sign,
then a nonempty run of decimal digits; anything else raises `ValueError`
(modelled as `none`). -/
def pyInt (s : Str) : Option Int :=
  match trimWs s with
  | '-' :: ds => if isDigits ds then some (-(digitsVal ds : Int)) else none
  | '+' :: ds => if isDigits ds then some ((digitsVal ds : Int)) else none
  | ds => if isDigits ds then some ((digitsVal ds : Int)) else none

/-- `parse_capacity` of app.py: if the cell matches `^\d+(-\d+)?$`, take the
integer value of the last hyphen-separated group (`cap.split("-")[-1]`,
the upper end of a range); otherwise attempt a direct integer parse,
yielding `none` (Python `None`) on failure. -/
def parse_capacity (cap : Str) : Option Int :=
  if capPattern cap then some ((digitsVal ((splitOnChar '-' cap).getLastD [])) : Int)
  else pyInt cap

/-- Budget cleaning of app.py: `replace({"₹": "", ",": ""}, regex=True)`
removes every occurrence of the currency symbol and of commas. -/
def stripBudget (s : Str) : Str := s.filter (fun ch => ch ≠ '₹' && ch ≠ ',')

/-- Budget conversion of app.py: strip then `astype(int)`; a value that is
not an integer literal raises (modelled as `none`). -/
def parse_budget (s : Str) : Option Int := pyInt (stripBudget s)

/-- One raw CSV row of venues.csv (the columns the pipeline uses).
`eventType` is `none` when the Event Type cell is missing (pandas `NaN`). -/
structure RawRow where
  venueName : Str
  location : Str
  capacity : Str
  vtype : Str
  budget : Str
  eventType : Option Str
  equipments : Str
deriving DecidableEq, Repr

/-- One row of the normalized table: Capacity and Budget coerced to
integers, all other fields carried over unchanged. -/
structure Venue where
  venueName : Str
  location : Str
  capacity : Int
  vtype : Str
  budget : Int
  eventType : Option Str
  equipments : Str
deriving DecidableEq, Repr

/-- Build the normalized row from a raw row and its parsed numeric fields. -/
def mkVenue (r : RawRow) (cap bud : Int) : Venue :=
  { venueName := r.venueName, location := r.location, capacity := cap,
    vtype := r.vtype, budget := bud, eventType := r.eventType,
    equipments := r.equipments }

/-- The Capacity pass of `load_data`: apply `parse_capacity` to every row
and drop the rows where it returned `None` (`apply` + `dropna`), keeping
each surviving row with its parsed capacity. -/
def dropBadCapacity (rows : List RawRow) : List (RawRow × Int) :=
  rows.filterMap (fun r => (parse_capacity r.capacity).map (fun c => (r, c)))

/-- The Budget pass of `load_data`: convert the Budget cell of every kept
row; one failure makes the whole conversion fail (`astype(int)` raises). -/
def convertBudgets (kept : List (RawRow × Int)) : Option (List Venue) :=
  kept.mapM (fun rc => (parse_budget rc.1.budget).map (fun b => mkVenue rc.1 rc.2 b))

/-- `load_data` of app.py: parse Capacity on every row and drop the rows
where it fails (`dropna`), then convert Budget on each surviving row;
a Budget conversion failure makes the whole load fail (`astype(int)`
raises), modelled as `none`. -/
def load_data (rows : List RawRow) : Option (List Venue) :=
  convertBudgets (dropBadCapacity rows)

/-- The filter criteria supplied by the UI widgets of app.py. -/
structure Criteria where
  eventType : Str
  location : Str
  attendees : Int
  budget : Int
  venueType : Str
  amenities : List Str
deriving DecidableEq, Repr

/-- The `"Any"` sentinel of the location and venue-type widgets. -/
def anyTok : Str := ['A', 'n', 'y']

/-- ASCII lowercasing of a cell (`str.lower` / `case=False`). -/
def toLowerStr (s : Str) : Str := s.map Char.toLower

/-- Python `needle in hay` on strings: contiguous substring containment
(the empty needle is contained in everything). -/
def strIn (needle : Str) : Str → Bool
  | [] => needle.isEmpty
  | ch :: t => needle.isPrefixOf (ch :: t) || strIn needle t

/-- `Series.str.contains(pat, case=False, na=False)` for a literal pattern:
case-insensitive substring test, `false` on a missing value. -/
def eventOk (c : Criteria) (v : Venue) : Bool :=
  match v.eventType with
  | none => false
  | some s => strIn (toLowerStr c.eventType) (toLowerStr s)

/-- The first boolean mask of app.py (capacity, budget, event type). -/
def basePred (c : Criteria) (v : Venue) : Bool :=
  decide (c.attendees ≤ v.capacity) && decide (v.budget ≤ c.budget) && eventOk c v

/-- The base filtering step `venues[mask]` of app.py. -/
def baseFilter (vs : List Venue) (c : Criteria) : List Venue :=
  vs.filter (fun v => basePred c v)

/-- The conditional venue-type step (`if venue_type != "Any": ...`,
case-insensitive equality of the Type column). -/
def typeFilter (vs : List Venue) (c : Criteria) : List Venue :=
  if c.venueType = anyTok then vs
  else vs.filter (fun v => toLowerStr v.vtype == toLowerStr c.venueType)

/-- The conditional location step (`if selected_location != "Any": ...`,
exact equality of the Location column). -/
def locFilter (vs : List Venue) (c : Criteria) : List Venue :=
  if c.location = anyTok then vs
  else vs.filter (fun v => v.location == c.location)

/-- The conditional amenity step (`if selected_amenities: ...`): keep the
rows whose raw Available Equipments cell contains every requested tag,
Python `item in x` being substring containment on strings. -/
def amenFilter (vs : List Venue) (ams : List Str) : List Venue :=
  if ams.isEmpty then vs
  else vs.filter (fun v => ams.all (fun a => strIn a v.equipments))

/-- `filtered_venues` of app.py: the four filtering steps in source order. -/
def filtered_venues (vs : List Venue) (c : Criteria) : List Venue :=
  amenFilter (locFilter (typeFilter (baseFilter vs c) c) c) c.amenities

/-- The conjunction of all predicates in effect, as a single row predicate. -/
def rowMatches (c : Criteria) (v : Venue) : Bool :=
  basePred c v &&
  (decide (c.venueType = anyTok) || toLowerStr v.vtype == toLowerStr c.venueType) &&
  (decide (c.location = anyTok) || v.location == c.location) &&
  (c.amenities.isEmpty || c.amenities.all (fun a => strIn a v.equipments))

/-- Digit character of a value below ten. -/
def digitCh : Nat → Char
  | 0 => '0'
  | 1 => '1'
  | 2 => '2'
  | 3 => '3'
  | 4 => '4'
  | 5 => '5'
  | 6 => '6'
  | 7 => '7'
  | 8 => '8'
  | 9 => '9'
  | _ => '?'

/-- Decimal representation, with explicit fuel (structural recursion). -/
def natReprAux : Nat → Nat → Str
  | 0, _ => []
  | fuel + 1, n =>
    if n < 10 then [digitCh n]
    else natReprAux fuel (n / 10) ++ [digitCh (n % 10)]

/-- Decimal representation of a natural number, most significant digit
first (`"0"`, `"12"`, ...). -/
def natRepr (n : Nat) : Str := natReprAux (n + 1) n

/-! Concrete rows, venues and criteria used to instantiate the theorems. -/

/-- A normalized row matching every non-amenity predicate of `demoCrit`. -/
def demoVenue : Venue :=
  { venueName := ("V".data), location := ("City A".data), capacity := 100,
    vtype := ("Indoor".data), budget := 10,
    eventType := some ("Wedding".data), equipments := ([]) }

/-- Criteria requesting one amenity that `demoVenue` lacks. -/
def demoCrit : Criteria :=
  { eventType := ("Wedding".data), location := anyTok, attendees := 50,
    budget := 100, venueType := anyTok, amenities := [("Mic".data)] }

/-- A raw row whose Capacity cell is a negative integer literal. -/
def demoNegRow : RawRow :=
  { venueName := ("N".data), location := ("L".data), capacity := ("-5".data),
    vtype := ("Indoor".data), budget := ("100".data),
    eventType := some ("Wedding".data), equipments := ("Mic".data) }

/-- The normalized row produced from `demoNegRow`: Capacity is `-5`. -/
def demoNegVenue : Venue :=
  { venueName := ("N".data), location := ("L".data), capacity := -5,
    vtype := ("Indoor".data), budget := 100,
    eventType := some ("Wedding".data), equipments := ("Mic".data) }

/-- A raw row whose Capacity and Budget cells are both unparseable. -/
def demoBadBothRow : RawRow :=
  { venueName := ("B".data), location := ("L".data), capacity := ("abc".data),
    vtype := ("Indoor".data), budget := ("xyz".data),
    eventType := some ("Wedding".data), equipments := ([]) }

/-- A raw row with a parseable Capacity but an unparseable Budget. -/
def demoBadBudgetRow : RawRow :=
  { venueName := ("C".data), location := ("L".data), capacity := ("10".data),
    vtype := ("Indoor".data), budget := ("xyz".data),
    eventType := some ("Wedding".data), equipments := ([]) }

/-- A raw row with Capacity `"abc"` and a parseable Budget. -/
def demoAbcRow : RawRow :=
  { venueName := ("A".data), location := ("L".data), capacity := ("abc".data),
    vtype := ("Indoor".data), budget := ("5".data),
    eventType := some ("Wedding".data), equipments := ([]) }

/-- A normalized row owning the amenities `"Mic"` and `"WiFi"`. -/
def demoAmenVenue : Venue :=
  { venueName := ("W".data), location := ("City A".data), capacity := 500,
    vtype := ("Indoor".data), budget := 20000,
    eventType := some ("Wedding".data), equipments := ("Mic,WiFi".data) }

/-- Criteria with no amenity requested, matched by `demoAmenVenue`. -/
def demoBaseCrit : Criteria :=
  { eventType := ("Wedding".data), location := anyTok, attendees := 100,
    budget := 25000, venueType := ("Indoor".data), amenities := [] }

/-- A normalized row whose Event Type cell is missing. -/
def demoNoEventVenue : Venue :=
  { venueName := ("M".data), location := ("City A".data), capacity := 500,
    vtype := ("Indoor".data), budget := 20000,
    eventType := none, equipments := ("Mic".data) }

/-! ### Lemmas on the character-level helpers -/

theorem splitOnChar_ne_nil (c : Char) (l : Str) : splitOnChar c l ≠ [] := by
  induction l with
  | nil => simp [splitOnChar]
  | cons x xs ih =>
    by_cases hx : x = c
    · simp [splitOnChar, hx]
    · cases h : splitOnChar c xs with
      | nil => exact absurd h ih
      | cons s rest => simp [splitOnChar, hx, h]

theorem splitOnChar_no_occ (c : Char) :
    ∀ l : Str, (∀ x ∈ l, x ≠ c) → splitOnChar c l = [l] := by
  intro l
  induction l with
  | nil => intro _; rfl
  | cons x xs ih =>
    intro h
    have hx : x ≠ c := h x (List.mem_cons_self x xs)
    have hxs := ih (fun y hy => h y (List.mem_cons_of_mem x hy))
    simp [splitOnChar, hx, hxs]

theorem splitOnChar_append (c : Char) (b : Str) :
    ∀ a : Str, (∀ x ∈ a, x ≠ c) →
      splitOnChar c (a ++ c :: b) = a :: splitOnChar c b := by
  intro a
  induction a with
  | nil => intro _; simp [splitOnChar]
  | cons x xs ih =>
    intro h
    have hx : x ≠ c := h x (List.mem_cons_self x xs)
    have hxs := ih (fun y hy => h y (List.mem_cons_of_mem x hy))
    simp only [List.cons_append, splitOnChar, if_neg hx, List.append_eq, hxs]

theorem digitCh_isDigit {d : Nat} (h : d < 10) : (digitCh d).isDigit = true := by
  interval_cases d <;> decide

theorem digitCh_val {d : Nat} (h : d < 10) : (digitCh d).toNat - 48 = d := by
  interval_cases d <;> decide

theorem isDigits_iff {s : Str} :
    isDigits s = true ↔ s ≠ [] ∧ ∀ x ∈ s, x.isDigit = true := by
  cases s <;> simp [isDigits, List.all_eq_true]

theorem isDigits_ne_hyphen {s : Str} (h : isDigits s = true) :
    ∀ x ∈ s, x ≠ '-' := by
  intro x hx he
  have hd := (isDigits_iff.mp h).2 x hx
  rw [he] at hd
  exact absurd hd (by decide)

theorem digitsVal_append_digit (xs : Str) (ch : Char) :
    digitsVal (xs ++ [ch]) = 10 * digitsVal xs + (ch.toNat - 48) := by
  simp [digitsVal, List.foldl_append]

theorem natReprAux_spec : ∀ fuel n : Nat, n < fuel →
    isDigits (natReprAux fuel n) = true ∧ digitsVal (natReprAux fuel n) = n := by
  intro fuel
  induction fuel with
  | zero => intro n h; exact absurd h (Nat.not_lt_zero n)
  | succ f ih =>
    intro n h
    by_cases h10 : n < 10
    · simp only [natReprAux, if_pos h10]
      interval_cases n <;> exact ⟨by decide, by decide⟩
    · simp only [natReprAux, if_neg h10]
      have hlt : n / 10 < f := by omega
      obtain ⟨hd, hv⟩ := ih (n / 10) hlt
      have hm : n % 10 < 10 := Nat.mod_lt _ (by omega)
      constructor
      · rcases isDigits_iff.mp hd with ⟨hne, hall⟩
        apply isDigits_iff.mpr
        refine ⟨by simp, ?_⟩
        intro x hx
        rcases List.mem_append.mp hx with hx | hx
        · exact hall x hx
        · have hx' : x = digitCh (n % 10) := List.mem_singleton.mp hx
          rw [hx']
          exact digitCh_isDigit hm
      · rw [digitsVal_append_digit, hv, digitCh_val hm]
        omega

theorem natRepr_isDigits (n : Nat) : isDigits (natRepr n) = true :=
  (natReprAux_spec (n + 1) n (Nat.lt_succ_self n)).1

theorem digitsVal_natRepr (n : Nat) : digitsVal (natRepr n) = n :=
  (natReprAux_spec (n + 1) n (Nat.lt_succ_self n)).2

theorem splitOnChar_natRepr_range (a b : Nat) :
    splitOnChar '-' (natRepr a ++ '-' :: natRepr b) = [natRepr a, natRepr b] := by
  rw [splitOnChar_append '-' (natRepr b) (natRepr a)
        (isDigits_ne_hyphen (natRepr_isDigits a)),
      splitOnChar_no_occ '-' (natRepr b)
        (isDigits_ne_hyphen (natRepr_isDigits b))]

theorem parse_capacity_range (a b : Nat) :
    parse_capacity (natRepr a ++ '-' :: natRepr b) = some (b : Int) := by
  have hsplit := splitOnChar_natRepr_range a b
  have hpat : capPattern (natRepr a ++ '-' :: natRepr b) = true := by
    simp [capPattern, hsplit, natRepr_isDigits]
  simp [parse_capacity, hpat, hsplit, digitsVal_natRepr]

theorem parse_capacity_plain (a : Nat) :
    parse_capacity (natRepr a) = some (a : Int) := by
  have hsplit := splitOnChar_no_occ '-' (natRepr a)
    (isDigits_ne_hyphen (natRepr_isDigits a))
  have hpat : capPattern (natRepr a) = true := by
    simp [capPattern, hsplit, natRepr_isDigits]
  simp [parse_capacity, hpat, hsplit, digitsVal_natRepr]

/-! ### Equations for the loader -/

theorem optionMapM_cons {α β : Type} (f : α → Option β) (a : α) (l : List α) :
    (a :: l).mapM f
      = (f a).bind (fun b => (l.mapM f).bind (fun bs => some (b :: bs))) := by
  rw [List.mapM_cons]
  cases f a <;> cases l.mapM f <;> rfl

theorem convertBudgets_cons (r : RawRow) (c : Int) (k : List (RawRow × Int)) :
    convertBudgets ((r, c) :: k)
      = (parse_budget r.budget).bind
          (fun b => (convertBudgets k).bind (fun t => some (mkVenue r c b :: t))) := by
  simp only [convertBudgets]
  rw [optionMapM_cons]
  cases parse_budget r.budget <;> rfl

theorem load_data_nil : load_data [] = some [] := rfl

theorem load_data_cons_none {r : RawRow} {rows : List RawRow}
    (h : parse_capacity r.capacity = none) :
    load_data (r :: rows) = load_data rows := by
  simp [load_data, dropBadCapacity, List.filterMap_cons, h]

theorem load_data_cons_some {r : RawRow} {rows : List RawRow} {c : Int}
    (h : parse_capacity r.capacity = some c) :
    load_data (r :: rows)
      = (parse_budget r.budget).bind
          (fun b => (load_data rows).bind (fun t => some (mkVenue r c b :: t))) := by
  simp only [load_data, dropBadCapacity, List.filterMap_cons, h, Option.map_some']
  exact convertBudgets_cons r c _

/-! ### Equations for the filter -/

theorem stage_eq (l : List Venue) (q p : Venue → Bool) (cond : Prop)
    [Decidable cond] :
    (if cond then l.filter q else (l.filter q).filter p)
      = l.filter (fun v => q v && (decide cond || p v)) := by
  by_cases h : cond
  · simp [h]
  · simp [h, List.filter_filter, Bool.and_comm]

theorem filtered_eq_filter (vs : List Venue) (c : Criteria) :
    filtered_venues vs c = vs.filter (rowMatches c) := by
  simp only [filtered_venues, baseFilter, typeFilter, locFilter, amenFilter]
  rw [stage_eq, stage_eq, stage_eq]
  apply List.filter_congr
  intro v _
  cases h : c.amenities.isEmpty <;> simp [rowMatches, h]

theorem or_decide_iff (P : Prop) [Decidable P] (b : Bool) :
    (decide P || b) = true ↔ (¬ P → b = true) := by
  by_cases h : P <;> simp [h]

theorem isEmpty_or_iff (l : List Str) (b : Bool) :
    (l.isEmpty || b) = true ↔ (l ≠ [] → b = true) := by
  cases l <;> simp

theorem eventOk_iff (c : Criteria) (v : Venue) :
    eventOk c v = true ↔
      ∃ s, v.eventType = some s ∧
        strIn (toLowerStr c.eventType) (toLowerStr s) = true := by
  cases hv : v.eventType <;> simp [eventOk, hv]

theorem rowMatches_iff (c : Criteria) (v : Venue) :
    rowMatches c v = true ↔
      (c.attendees ≤ v.capacity ∧
       v.budget ≤ c.budget ∧
       (∃ s, v.eventType = some s ∧
         strIn (toLowerStr c.eventType) (toLowerStr s) = true) ∧
       (c.venueType ≠ anyTok → toLowerStr v.vtype = toLowerStr c.venueType) ∧
       (c.location ≠ anyTok → v.location = c.location) ∧
       (c.amenities ≠ [] → ∀ a ∈ c.amenities, strIn a v.equipments = true)) := by
  simp only [rowMatches, basePred, Bool.and_eq_true, or_decide_iff, isEmpty_or_iff,
    decide_eq_true_eq, beq_iff_eq, List.all_eq_true, eventOk_iff, and_assoc]

/-! ### The claims -/

/-- C1 (counterexample): the claimed characterization of the filtered result —
capacity, budget, event-type substring, conditional venue-type and location
equality, with no amenity clause — is refuted by a table whose single row
meets every listed predicate yet is excluded because a requested amenity is
missing from its Available Equipments cell. -/
theorem C1_counterexample :
    ¬ (demoVenue ∈ filtered_venues [demoVenue] demoCrit ↔
        (demoVenue ∈ [demoVenue] ∧
         demoCrit.attendees ≤ demoVenue.capacity ∧
         demoVenue.budget ≤ demoCrit.budget ∧
         (∃ s, demoVenue.eventType = some s ∧
           strIn (toLowerStr demoCrit.eventType) (toLowerStr s) = true) ∧
         (demoCrit.venueType ≠ anyTok →
           toLowerStr demoVenue.vtype = toLowerStr demoCrit.venueType) ∧
         (demoCrit.location ≠ anyTok →
           demoVenue.location = demoCrit.location))) := by
  intro h
  have hrhs :
      demoVenue ∈ [demoVenue] ∧
      demoCrit.attendees ≤ demoVenue.capacity ∧
      demoVenue.budget ≤ demoCrit.budget ∧
      (∃ s, demoVenue.eventType = some s ∧
        strIn (toLowerStr demoCrit.eventType) (toLowerStr s) = true) ∧
      (demoCrit.venueType ≠ anyTok →
        toLowerStr demoVenue.vtype = toLowerStr demoCrit.venueType) ∧
      (demoCrit.location ≠ anyTok → demoVenue.location = demoCrit.location) := by
    refine ⟨by decide, by decide, by decide, ⟨("Wedding".data), rfl, by decide⟩,
      ?_, ?_⟩
    · intro hne; exact absurd rfl hne
    · intro hne; exact absurd rfl hne
  exact absurd (h.mpr hrhs) (by decide)

/-- C1 (amended): a row is in the filtered result iff it is a row of the
table and its Capacity is at least the requested attendee count, its Budget
is at most the budget ceiling, its Event Type cell contains the requested
event type as a case-insensitive substring, when the venue-type criterion is
not "Any" its Type cell equals it case-insensitively, when the location
criterion is not "Any" its Location cell equals it exactly, and — the clause
the original claim omitted — when the requested-amenities set is non-empty,
every requested amenity occurs in its Available Equipments cell. -/
theorem C1_membership (vs : List Venue) (c : Criteria) (v : Venue) :
    v ∈ filtered_venues vs c ↔
      (v ∈ vs ∧
       c.attendees ≤ v.capacity ∧
       v.budget ≤ c.budget ∧
       (∃ s, v.eventType = some s ∧
         strIn (toLowerStr c.eventType) (toLowerStr s) = true) ∧
       (c.venueType ≠ anyTok → toLowerStr v.vtype = toLowerStr c.venueType) ∧
       (c.location ≠ anyTok → v.location = c.location) ∧
       (c.amenities ≠ [] → ∀ a ∈ c.amenities, strIn a v.equipments = true)) := by
  rw [filtered_eq_filter, List.mem_filter, rowMatches_iff]

/-- C2: range cells `"a-b"` parse to the second (upper) number, plain digit
cells parse to their value, cells outside the range pattern fall back to a
direct integer parse, and exactly the rows whose Capacity parses survive a
successful load. -/
theorem C2_capacity_rule :
    (∀ a b : Nat, parse_capacity (natRepr a ++ '-' :: natRepr b) = some (b : Int)) ∧
    (∀ a : Nat, parse_capacity (natRepr a) = some (a : Int)) ∧
    (∀ s : Str, capPattern s = false → parse_capacity s = pyInt s) ∧
    (∀ rows : List RawRow, ∀ t : List Venue, load_data rows = some t →
      t.length
        = (rows.filter (fun r => (parse_capacity r.capacity).isSome)).length) := by
  refine ⟨fun a b => parse_capacity_range a b, fun a => parse_capacity_plain a,
    ?_, ?_⟩
  · intro s h
    simp [parse_capacity, h]
  · intro rows
    induction rows with
    | nil =>
      intro t ht
      rw [load_data_nil] at ht
      injection ht with h
      rw [← h]
      rfl
    | cons r rest ih =>
      intro t ht
      cases hc : parse_capacity r.capacity with
      | none =>
        rw [load_data_cons_none hc] at ht
        simp [List.filter_cons, hc]
        exact ih t ht
      | some cap =>
        rw [load_data_cons_some hc] at ht
        cases hb : parse_budget r.budget with
        | none => rw [hb] at ht; exact absurd ht (by simp)
        | some b =>
          rw [hb] at ht
          cases hrest : load_data rest with
          | none => rw [hrest] at ht; exact absurd ht (by simp)
          | some t' =>
            rw [hrest] at ht
            simp only [Option.some_bind, Option.some.injEq] at ht
            rw [← ht]
            simp [List.filter_cons, hc]
            exact ih t' hrest

/-- C2 (witness): the cell `"abc"` falls back to the direct parse, and a
table whose only row has that Capacity cell loads to the empty table. -/
theorem C2_witness :
    parse_capacity ("abc".data) = pyInt ("abc".data) ∧
      (([] : List Venue)).length
        = ([demoAbcRow].filter
            (fun r => (parse_capacity r.capacity).isSome)).length :=
  ⟨C2_capacity_rule.2.2.1 ("abc".data) (by decide),
   C2_capacity_rule.2.2.2 [demoAbcRow] [] (by decide)⟩

/-- C3 (counterexample): the Capacity cell `"-5"` does not match the range
regex, so the direct integer parse accepts it and the row survives the load
with a negative Capacity, refuting the claimed non-negativity. -/
theorem C3_counterexample :
    load_data [demoNegRow] = some [demoNegVenue] ∧ demoNegVenue.capacity < 0 :=
  ⟨by decide, by decide⟩

/-- C3 (amended): every row of a successfully loaded table carries a genuine
non-null integer Capacity and a genuine non-null integer Budget, each the
parse of the owning raw row's cell, and the row is exactly that raw row with
the two coerced fields — no partial record is retained.  (The integers need
not be non-negative: a negative literal passes the direct parse.) -/
theorem C3_normalized_rows_parsed :
    ∀ rows : List RawRow, ∀ t : List Venue, load_data rows = some t →
      ∀ v ∈ t, ∃ r ∈ rows,
        parse_capacity r.capacity = some v.capacity ∧
        parse_budget r.budget = some v.budget ∧
        v = mkVenue r v.capacity v.budget := by
  intro rows
  induction rows with
  | nil =>
    intro t ht v hv
    rw [load_data_nil] at ht
    injection ht with h
    rw [← h] at hv
    exact absurd hv (List.not_mem_nil v)
  | cons r rest ih =>
    intro t ht v hv
    cases hc : parse_capacity r.capacity with
    | none =>
      rw [load_data_cons_none hc] at ht
      obtain ⟨r', hr', h1, h2, h3⟩ := ih t ht v hv
      exact ⟨r', List.mem_cons_of_mem r hr', h1, h2, h3⟩
    | some cap =>
      rw [load_data_cons_some hc] at ht
      cases hb : parse_budget r.budget with
      | none => rw [hb] at ht; exact absurd ht (by simp)
      | some b =>
        rw [hb] at ht
        cases hrest : load_data rest with
        | none => rw [hrest] at ht; exact absurd ht (by simp)
        | some t' =>
          rw [hrest] at ht
          simp only [Option.some_bind, Option.some.injEq] at ht
          rw [← ht] at hv
          rcases List.mem_cons.mp hv with rfl | hv'
          · exact ⟨r, List.mem_cons_self r rest, hc, hb, rfl⟩
          · obtain ⟨r', hr', h1, h2, h3⟩ := ih t' hrest v hv'
            exact ⟨r', List.mem_cons_of_mem r hr', h1, h2, h3⟩

/-- C3 (witness): the single-row table built from `demoNegRow` loads, and
its one venue is the coercion of that raw row. -/
theorem C3_witness :
    ∃ r ∈ [demoNegRow],
      parse_capacity r.capacity = some demoNegVenue.capacity ∧
      parse_budget r.budget = some demoNegVenue.budget ∧
      demoNegVenue = mkVenue r demoNegVenue.capacity demoNegVenue.budget :=
  C3_normalized_rows_parsed [demoNegRow] [demoNegVenue] (by decide)
    demoNegVenue (by decide)

/-- C4: the filtered result is the stable subsequence of the table selected
by the conjunction of the predicates in effect: an ordered sublist of the
input containing exactly the matching rows, unmodified. -/
theorem C4_stable_subsequence (vs : List Venue) (c : Criteria) :
    List.Sublist (filtered_venues vs c) vs ∧
      filtered_venues vs c = vs.filter (rowMatches c) := by
  rw [filtered_eq_filter]
  exact ⟨List.filter_sublist vs, rfl⟩

/-- C5: with a non-empty requested-amenities set, a row passes the amenity
step iff every requested tag is contained in its raw Available Equipments
cell (Python `in` on strings, i.e. substring containment); with an empty
set the step keeps every row. -/
theorem C5_amenity_subset (vs : List Venue) (ams : List Str) (v : Venue) :
    (ams ≠ [] →
      (v ∈ amenFilter vs ams ↔
        v ∈ vs ∧ ∀ a ∈ ams, strIn a v.equipments = true)) ∧
    (ams = [] → amenFilter vs ams = vs) := by
  constructor
  · intro hne
    have hie : ams.isEmpty = false := by
      cases ams with
      | nil => exact absurd rfl hne
      | cons x xs => rfl
    simp [amenFilter, hie, List.mem_filter, List.all_eq_true]
  · intro he
    rw [he]
    rfl

/-- C5 (witness): `demoAmenVenue` passes the amenity step for the requested
set `["Mic"]`, and the empty requested set keeps the whole table. -/
theorem C5_witness :
    (demoAmenVenue ∈ amenFilter [demoAmenVenue] [("Mic".data)] ↔
      demoAmenVenue ∈ [demoAmenVenue] ∧
        ∀ a ∈ [("Mic".data)], strIn a demoAmenVenue.equipments = true) ∧
    amenFilter [demoAmenVenue] ([] : List Str) = [demoAmenVenue] :=
  ⟨(C5_amenity_subset [demoAmenVenue] [("Mic".data)] demoAmenVenue).1
      (by decide),
   (C5_amenity_subset [demoAmenVenue] ([] : List Str) demoAmenVenue).2 rfl⟩

/-- C6 (counterexample): a Budget cell that is non-numeric after stripping
does not always abort the load: when the owning row's Capacity is also
unparseable, the row is dropped first and the load succeeds. -/
theorem C6_counterexample :
    parse_budget demoBadBothRow.budget = none ∧
      load_data [demoBadBothRow] = some [] :=
  ⟨by decide, by decide⟩

/-- C6 (amended): a Budget cell that is non-numeric after stripping the
currency symbol and commas, in a row that survives Capacity parsing, makes
the whole load fail — no table is produced, unlike Capacity's row-skip. -/
theorem C6_budget_fatal :
    ∀ rows : List RawRow, ∀ r ∈ rows,
      (parse_capacity r.capacity).isSome = true →
      parse_budget r.budget = none →
      load_data rows = none := by
  intro rows
  induction rows with
  | nil => intro r hr; exact absurd hr (List.not_mem_nil r)
  | cons x rest ih =>
    intro r hr hcap hbud
    rcases List.mem_cons.mp hr with rfl | hr'
    · obtain ⟨cap, hc⟩ := Option.isSome_iff_exists.mp hcap
      rw [load_data_cons_some hc, hbud]
      rfl
    · have htail := ih r hr' hcap hbud
      cases hc : parse_capacity x.capacity with
      | none => rw [load_data_cons_none hc]; exact htail
      | some cap =>
        rw [load_data_cons_some hc, htail]
        cases parse_budget x.budget <;> rfl

/-- C6 (witness): the table whose only row has Capacity `"10"` and Budget
`"xyz"` fails to load. -/
theorem C6_witness : load_data [demoBadBudgetRow] = none :=
  C6_budget_fatal [demoBadBudgetRow] demoBadBudgetRow (by decide) (by decide)
    (by decide)

/-- C7: the amenity criterion is monotone — adding one amenity to the
requested set can only remove rows from the filtered result. -/
theorem C7_amenity_monotone (vs : List Venue) (c : Criteria) (a : Str)
    (v : Venue)
    (h : v ∈ filtered_venues vs { c with amenities := c.amenities ++ [a] }) :
    v ∈ filtered_venues vs c := by
  rw [filtered_eq_filter, List.mem_filter] at h ⊢
  obtain ⟨hmem, hm⟩ := h
  refine ⟨hmem, ?_⟩
  rw [rowMatches_iff] at hm ⊢
  obtain ⟨h1, h2, h3, h4, h5, h6⟩ := hm
  refine ⟨h1, h2, h3, h4, h5, ?_⟩
  intro _ a' ha'
  exact h6 (by simp) a' (List.mem_append_left [a] ha')

/-- C7 (witness): `demoAmenVenue` survives the filter with the amenity
`"Mic"` added to the empty requested set, hence also without it. -/
theorem C7_witness :
    demoAmenVenue ∈ filtered_venues [demoAmenVenue] demoBaseCrit :=
  C7_amenity_monotone [demoAmenVenue] demoBaseCrit ("Mic".data) demoAmenVenue
    (by decide)

/-- C8: filtering is idempotent — filtering the filtered result again with
the same criteria returns it unchanged. -/
theorem C8_idempotent (vs : List Venue) (c : Criteria) :
    filtered_venues (filtered_venues vs c) c = filtered_venues vs c := by
  simp [filtered_eq_filter]

/-- C10: a row whose Event Type cell is missing is never in the filtered
result: `str.contains(..., na=False)` turns the missing value into a
non-match instead of an error. -/
theorem C10_missing_event_excluded (vs : List Venue) (c : Criteria)
    (v : Venue) (h : v.eventType = none) : v ∉ filtered_venues vs c := by
  intro hmem
  rw [filtered_eq_filter, List.mem_filter] at hmem
  have hm := hmem.2
  simp [rowMatches, basePred, eventOk, h] at hm

/-- C10 (witness): the venue with a missing Event Type cell is excluded from
the filter over the single-row table containing it. -/
theorem C10_witness :
    demoNoEventVenue ∉ filtered_venues [demoNoEventVenue] demoBaseCrit :=
  C10_missing_event_excluded [demoNoEventVenue] demoBaseCrit demoNoEventVenue
    rfl

end EventPlanner
